import Mathlib

/-!
Verification of the Document Discovery & Concurrent Retrieval Engine of the
financial-archiver repository (src/app.py and src/cloud_ready_app.py).

The Python code is shallowly embedded: HTML documents are abstracted to the
exact shape the planner consumes (the annual-report section's list items and
the page's anchors, each with the text fragments BeautifulSoup would return),
filesystem paths are lists of components, the network is an oracle argument,
and wall-clock-derived ETA values are an oracle function.  The `Archiver`
namespace models src/app.py; the `Archiver.CloudReady` namespace models the
points where src/cloud_ready_app.py differs.
-/

namespace Archiver

/- Python `re` word characters, used by the `\b` boundary in the year and
month patterns (ASCII fragment of the source's regexes). -/
def isWordChar (c : Char) : Bool := c.isAlphanum || c = '_'

/- A `\b` boundary holds before a position when the previous character (if
any) is not a word character. -/
def boundaryBefore : Option Char → Bool
  | none => true
  | some c => !isWordChar c

/- A `\b` boundary holds after a match when the next character (if any) is
not a word character. -/
def headNotWord : List Char → Bool
  | [] => true
  | c :: _ => !isWordChar c

/- Match of `20\d{2}\b` at the head of the text (the leading `\b` is checked
by the caller), returning the numeric value of the four digits. -/
def yearAt : List Char → Option Nat
  | c1 :: c2 :: c3 :: c4 :: rest =>
    if c1 = '2' && c2 = '0' && c3.isDigit && c4.isDigit && headNotWord rest then
      some (2000 + 10 * (c3.toNat - 48) + (c4.toNat - 48))
    else none
  | _ => none

/- Leftmost match of `\b(20\d{2})\b`, as produced by `re.search` /
`re.findall(...)[0]` in the source; `prev` is the character before the
current position. -/
def findYear : Option Char → List Char → Option Nat
  | _, [] => none
  | prev, c :: cs =>
    if boundaryBefore prev then
      match yearAt (c :: cs) with
      | some y => some y
      | none => findYear (some c) cs
    else findYear (some c) cs

/- Case-insensitive match of a lowercase pattern at the head of the text,
returning the remaining text. -/
def stripCI : List Char → List Char → Option (List Char)
  | [], cs => some cs
  | _ :: _, [] => none
  | w :: ws, c :: cs => if c.toLower = w then stripCI ws cs else none

/- Whole-word case-insensitive match at the current position: the pattern
matches here and is followed by a `\b` boundary. -/
def matchHere (w cs : List Char) : Bool :=
  match stripCI w cs with
  | some rest => headNotWord rest
  | none => false

/- Existence of a whole-word case-insensitive match anywhere in the text,
modelling `re.search(rf'\b{m}\b', text, re.I)`. -/
def hasWordCI (w : List Char) : Option Char → List Char → Bool
  | prev, [] => boundaryBefore prev && matchHere w []
  | prev, c :: cs => (boundaryBefore prev && matchHere w (c :: cs)) || hasWordCI w (some c) cs

/- The month_list of extract_metadata. -/
def month_list : List String :=
  ["jan", "feb", "mar", "apr", "may", "jun", "jul", "aug", "sep", "oct", "nov", "dec"]

/- Python str.capitalize: first character uppercased, the rest lowercased. -/
def capitalize (s : String) : String :=
  match s.data with
  | [] => ""
  | c :: cs => String.mk (c.toUpper :: cs.map Char.toLower)

/- The source's for-loop over month_list with break: the first month in list
order that occurs as a whole word wins; absence yields "General". -/
def monthScan (cs : List Char) : List String → String
  | [] => "General"
  | m :: ms => if hasWordCI m.data none cs then capitalize m else monthScan cs ms

/- An anchor element as the planner sees it: `text` is
link.get_text(strip=True), `selfText` is element.get_text(" ", strip=True),
`liText` is the enclosing list item's get_text(" ", strip=True) when the
anchor has a parent li, and `href` is the raw link target. -/
structure Anchor where
  text : String
  selfText : String
  liText : Option String
  href : String
deriving DecidableEq, Repr

/- The search text of extract_metadata: the parent li's text when present,
otherwise the element's own text. -/
def searchTextOf (a : Anchor) : String :=
  match a.liText with
  | some t => t
  | none => a.selfText

/- The combined text searched by app.py's extract_metadata: search text plus
the raw href. -/
def combinedOf (a : Anchor) : String := searchTextOf a ++ " " ++ a.href

/- ScreenerUnifiedFetcher.extract_metadata of src/app.py: year is the first
`\b(20\d{2})\b` token of the combined text (None models "Unknown_Year"),
month is the first month of month_list occurring as a whole word. -/
def extract_metadata (a : Anchor) : Option Nat × String :=
  ((findYear none (combinedOf a).data), monthScan (combinedOf a).data month_list)

namespace CloudReady

/- ScreenerUnifiedFetcher.extract_metadata of src/cloud_ready_app.py: same
scans, but only over the search text — the href is not consulted. -/
def extract_metadata (a : Anchor) : Option Nat × String :=
  ((findYear none (searchTextOf a).data), monthScan (searchTextOf a).data month_list)

end CloudReady

/- Document-order-first month, modelled from the spec: scan the text left to
right and at each position return the first month abbreviation that matches
as a whole word there.  Used to compare the spec's "first match by document
order" reading against the code's list-order loop. -/
def docOrderScan : Option Char → List Char → Option String
  | _, [] => none
  | prev, c :: cs =>
    match (if boundaryBefore prev then month_list.find? (fun m => matchHere m.data (c :: cs)) else none) with
    | some m => some m
    | none => docOrderScan (some c) cs

/- Substring containment, modelling Python's `needle in haystack`. -/
def hasSubstr (w : List Char) : List Char → Bool
  | [] => w.isEmpty
  | c :: cs => w.isPrefixOf (c :: cs) || hasSubstr w cs

/- Python str.lower (ASCII fragment). -/
def pyLower (s : String) : String := String.mk (s.data.map Char.toLower)

/- Python str.upper (ASCII fragment). -/
def pyUpper (s : String) : String := String.mk (s.data.map Char.toUpper)

/- Drop leading whitespace from a character list. -/
def dropSpace : List Char → List Char
  | [] => []
  | c :: cs => if c.isWhitespace then dropSpace cs else c :: cs

/- Python str.strip: remove whitespace from both ends. -/
def pyStrip (s : String) : String :=
  String.mk ((dropSpace (dropSpace s.data).reverse).reverse)

/- Python str.startswith. -/
def pyStartsWith (s pre : String) : Bool := pre.data.isPrefixOf s.data

/- Python str.split(',') : splits on every comma, keeping empty pieces. -/
def splitCommaAux : List Char → List Char → List String
  | acc, [] => [String.mk acc.reverse]
  | acc, c :: cs =>
    if c = ',' then String.mk acc.reverse :: splitCommaAux [] cs
    else splitCommaAux (c :: acc) cs

/- Python str.split(',') on a string. -/
def splitComma (s : String) : List String := splitCommaAux [] s.data

/- ScreenerUnifiedFetcher.sanitize: drop the characters of `[\\/*?:"<>|]`
and strip surrounding whitespace. -/
def sanitize (name : String) : String :=
  pyStrip (String.mk (name.data.filter
    (fun c => !(c ∈ ['\\', '/', '*', '?', ':', '"', '<', '>', '|']))))

/- Paths are modelled as lists of components; DOCUMENTS_ROOT is
/tmp/Financial_Archive. -/
def documentsRoot : List String := ["tmp", "Financial_Archive"]

/- The company archive root: DOCUMENTS_ROOT / sanitize(name). -/
def compRoot (name : String) : List String := documentsRoot ++ [sanitize name]

/- A list item of the annual-reports section: its row text
li.get_text(" ", strip=True) and the href of its first anchor, if any. -/
structure ARItem where
  rowText : String
  linkHref : Option String
deriving DecidableEq, Repr

/- The document as the planner consumes it: the annual-report section's list
items (none when neither the id-anchored div nor the heading fallback finds
a section) and every href-bearing anchor of the page in document order. -/
structure Doc where
  arSection : Option (List ARItem)
  anchors : List Anchor
deriving DecidableEq, Repr

/- One planned download task.  The source stores the tuple
(category, period label, href, file path); the year and month components of
the period label are kept structured here (year none models the
"Unknown_Year" sentinel, month is none for annual-report tasks). -/
structure Task where
  cat : String
  year : Option Nat
  month : Option String
  url : String
  dest : List String
deriving DecidableEq, Repr

/- Rendering of the year field as the source's string: Unknown_Year when no
year was found. -/
def yearLabel : Option Nat → String
  | some y => Nat.repr y
  | none => "Unknown_Year"

/- Candidate filename tried by the collision loop at a given counter. -/
def candidateName (stem : String) (counter : Nat) : String :=
  stem ++ "_" ++ Nat.repr counter ++ ".pdf"

/- The body of `while file_path.exists(): ...` — `fs` is the set of paths
existing on disk, `cur` the current candidate.  On each iteration a
candidate that exists on disk is replaced by the next counter-suffixed
name. -/
def resolveLoop (fs : List (List String)) (dir : List String) (stem : String) :
    Nat → Nat → List String → List String
  | 0, _, cur => cur
  | fuel + 1, counter, cur =>
    if cur ∈ fs then
      resolveLoop fs dir stem fuel (counter + 1) (dir ++ [candidateName stem counter])
    else cur

/- Destination resolution of the concall pass: start from the unsuffixed
name with counter 1.  The Python loop terminates because the candidate
names are pairwise distinct and the on-disk set is finite; fs.length + 1
iterations suffice for the same reason. -/
def resolveDest (fs : List (List String)) (dir : List String) (stem : String) : List String :=
  resolveLoop fs dir stem (fs.length + 1) 1 (dir ++ [stem ++ ".pdf"])

/- The selected_types parse of src/app.py:
[t.strip() for t in download_type.split(',')]. -/
def selectedTypesOf (downloadType : String) : List String :=
  (splitComma downloadType).map pyStrip

/- The annual-report pass of src/app.py's process_company: entries without a
link or without a `\b(20\d{2})\b` year in their row text are skipped, as are
years outside [startYear, endYear]. -/
def annualPass (root : List String) (startYear endYear : Nat) (items : List ARItem) : List Task :=
  items.filterMap fun li =>
    match li.linkHref with
    | none => none
    | some href =>
      match findYear none li.rowText.data with
      | none => none
      | some y =>
        if y < startYear ∨ endYear < y then none
        else some
          { cat := "Annual Report", year := some y, month := none, url := href,
            dest := root ++ ["Annual_Reports", Nat.repr y, "Annual_Report_" ++ Nat.repr y ++ ".pdf"] }

/- Anchor classification of src/app.py, including the download_type gates:
Transcript when the lowercased link text contains "transcript" and that
category is selected, else PPT when the text is exactly "ppt" and selected. -/
def classify (types : List String) (linkText : String) : Option String :=
  if hasSubstr "transcript".data linkText.data && (types.contains "all" || types.contains "transcript") then
    some "Transcript"
  else if linkText == "ppt" && (types.contains "all" || types.contains "ppt") then
    some "PPT"
  else none

/- The PPT & transcripts pass of src/app.py's process_company.  `seen` is
seen_urls; anchors already seen, with a non-http href, or with
"consolidated" in the href are skipped; unclassified anchors, unknown years
and out-of-range years are skipped; the destination is resolved against the
on-disk set `fs`. -/
def concallLoop (types : List String) (symU : String) (root : List String)
    (startYear endYear : Nat) (fs : List (List String)) :
    List Anchor → List String → List Task
  | [], _ => []
  | a :: rest, seen =>
    let linkText := pyLower a.text
    let href := a.href
    if seen.contains href || !pyStartsWith href "http" || hasSubstr "consolidated".data href.data then
      concallLoop types symU root startYear endYear fs rest seen
    else
      match classify types linkText with
      | none => concallLoop types symU root startYear endYear fs rest seen
      | some cat =>
        match extract_metadata a with
        | (none, _) => concallLoop types symU root startYear endYear fs rest seen
        | (some y, month) =>
          if y < startYear ∨ endYear < y then
            concallLoop types symU root startYear endYear fs rest seen
          else
            { cat := cat, year := some y, month := some month, url := href,
              dest := resolveDest fs (root ++ [cat, Nat.repr y])
                        (symU ++ "_" ++ month ++ "_" ++ Nat.repr y ++ "_" ++ cat) }
              :: concallLoop types symU root startYear endYear fs rest (href :: seen)

/- The planning phase of src/app.py's process_company: the annual-report
pass when annual reports are selected, then the concall pass when ppt or
transcripts are selected. -/
def process_plan (doc : Doc) (symbol name : String) (startYear endYear : Nat)
    (downloadType : String) (fs : List (List String)) : List Task :=
  let types := selectedTypesOf downloadType
  let root := compRoot name
  let arTasks :=
    if types.contains "all" || types.contains "annual_reports" then
      match doc.arSection with
      | some items => annualPass root startYear endYear items
      | none => []
    else []
  let ccTasks :=
    if types.contains "all" || types.contains "ppt" || types.contains "transcript" then
      concallLoop types (pyUpper symbol) root startYear endYear fs doc.anchors []
    else []
  arTasks ++ ccTasks

namespace CloudReady

/- The annual-report pass of src/cloud_ready_app.py: only known years
outside the range are skipped — an entry with no discoverable year is kept
with the Unknown_Year sentinel; a task is appended whenever the entry has a
link. -/
def annualPass (root : List String) (startYear endYear : Nat) (items : List ARItem) : List Task :=
  items.filterMap fun li =>
    let y? := findYear none li.rowText.data
    if (match y? with
        | some y => decide (y < startYear) || decide (endYear < y)
        | none => false) then none
    else
      match li.linkHref with
      | none => none
      | some href => some
          { cat := "Annual Report", year := y?, month := none, url := href,
            dest := root ++ ["Annual_Reports", yearLabel y?,
                             "Annual_Report_" ++ yearLabel y? ++ ".pdf"] }

/- Anchor classification of src/cloud_ready_app.py: no download_type
gates. -/
def classify (linkText : String) : Option String :=
  if hasSubstr "transcript".data linkText.data then some "Transcript"
  else if linkText == "ppt" then some "PPT"
  else none

/- The concalls pass of src/cloud_ready_app.py: unknown years are kept, the
destination directory is root/year/cat (year before category), and the
metadata extractor does not consult the href. -/
def concallLoop (symU : String) (root : List String) (startYear endYear : Nat)
    (fs : List (List String)) : List Anchor → List String → List Task
  | [], _ => []
  | a :: rest, seen =>
    let linkText := pyLower a.text
    let href := a.href
    if seen.contains href || !pyStartsWith href "http" || hasSubstr "consolidated".data href.data then
      concallLoop symU root startYear endYear fs rest seen
    else
      match classify linkText with
      | none => concallLoop symU root startYear endYear fs rest seen
      | some cat =>
        let md := CloudReady.extract_metadata a
        if (match md.1 with
            | some y => decide (y < startYear) || decide (endYear < y)
            | none => false) then
          concallLoop symU root startYear endYear fs rest seen
        else
          { cat := cat, year := md.1, month := some md.2, url := href,
            dest := resolveDest fs (root ++ [yearLabel md.1, cat])
                      (symU ++ "_" ++ md.2 ++ "_" ++ yearLabel md.1 ++ "_" ++ cat) }
            :: concallLoop symU root startYear endYear fs rest (href :: seen)

/- The planning phase of src/cloud_ready_app.py's process_company: no
download_type argument; both passes always run. -/
def plan (doc : Doc) (symbol name : String) (startYear endYear : Nat)
    (fs : List (List String)) : List Task :=
  let root := compRoot name
  let arTasks :=
    match doc.arSection with
    | some items => annualPass root startYear endYear items
    | none => []
  arTasks ++ concallLoop (pyUpper symbol) root startYear endYear fs doc.anchors []

end CloudReady

/- An HTTP response: status code and body (a byte list). -/
structure HttpResp where
  status : Nat
  content : List Nat
deriving DecidableEq, Repr

/- ScreenerUnifiedFetcher.download_file from the request onward: the URL
resolution and referer-header selection feed the network call and are
absorbed into the response oracle `resp` (error models any raised transport
exception).  Returns the success flag and the bytes written to the
destination, if any — the failure branches write nothing. -/
def download_file (resp : Except Unit HttpResp) : Bool × Option (List Nat) :=
  match resp with
  | Except.error _ => (false, none)
  | Except.ok r =>
    if r.status = 200 ∧ 1000 < r.content.length then (true, some r.content)
    else (false, none)

/- The number of tasks whose download returned success — the length
self.downloaded_files would reach. -/
def successCount (results : List Bool) : Nat := results.count true

/- One pipe-delimited progress event of the log queue. -/
inductive Event where
  | status (msg : String)
  | error (msg : String)
  | total (n : Nat)
  | progress (completed total eta : Nat)
  | complete (completed total : Nat) (root : List String)
deriving DecidableEq, Repr

/- The as_completed loop of process_company: `completed` is incremented once
per finished future — the download's boolean result is never consulted.
ETA values are wall-clock derived and abstracted by the oracle `eta`.
Returns the emitted PROGRESS events and the final value of `completed`. -/
def dispatchLoop (total : Nat) (eta : Nat → Nat) : List Bool → Nat → List Event × Nat
  | [], completed => ([], completed)
  | _ :: rest, completed =>
    let c := completed + 1
    let r := dispatchLoop total eta rest c
    (Event.progress c total (eta c) :: r.1, r.2)

/- The observable outcome of one process_company run: the events put on the
log queue, the returned archive root, and the tasks submitted to the worker
pool. -/
structure RunOutput where
  events : List Event
  ret : Option (List String)
  attempted : List Task
deriving DecidableEq, Repr

/- ScreenerUnifiedFetcher.process_company of src/app.py.  The page fetch is
the oracle `page` (error models a connection failure); `results` are the
per-future download outcomes in completion order; `eta` abstracts the
wall-clock ETA computation. -/
def process_company (page : Except String Doc) (symbol name : String)
    (startYear endYear : Nat) (downloadType : String) (fs : List (List String))
    (results : List Bool) (eta : Nat → Nat) : RunOutput :=
  let statusEv := Event.status ("Fetching data for " ++ name ++ "...")
  match page with
  | Except.error msg =>
    ⟨[statusEv, Event.error ("Connection failed: " ++ msg)], none, []⟩
  | Except.ok doc =>
    let tasks := process_plan doc symbol name startYear endYear downloadType fs
    let total := tasks.length
    if total = 0 then
      ⟨[statusEv, Event.status "No files found in the specified year range",
        Event.complete 0 0 []], none, []⟩
    else
      let r := dispatchLoop total eta results 0
      ⟨statusEv :: Event.total total :: (r.1 ++ [Event.complete r.2 total (compRoot name)]),
        some (compRoot name), tasks⟩

/- Concrete documents and anchors used to instantiate the theorems. -/

/- A page with a single annual-report entry for 2022. -/
def cdoc1 : Doc := ⟨some [⟨"Annual Report 2022", some "http://a"⟩], []⟩

/- A page with two annual-report entries that both carry the year 2022. -/
def cdoc2 : Doc :=
  ⟨some [⟨"Annual Report 2022", some "http://a"⟩,
         ⟨"Annual Report 2022 extra", some "http://b"⟩], []⟩

/- A page with one annual-report entry carrying no year at all. -/
def cdoc3 : Doc := ⟨some [⟨"Annual Report latest", some "http://a"⟩], []⟩

/- An anchor whose text mentions Dec before Jan. -/
def anchor4 : Anchor := ⟨"x", "Dec 2022 Jan", none, "u"⟩

/- An anchor whose year occurs only in the href. -/
def anchor5 : Anchor := ⟨"transcript", "Earnings Call", none, "http://x/2022.pdf"⟩

/- A page with no annual-report section and no anchors. -/
def cdoc7 : Doc := ⟨none, []⟩

/- A transcript anchor inside a list item dated Feb 2022. -/
def anchor10 : Anchor := ⟨"Transcript", "", some "Concall Feb 2022", "http://t/1"⟩

/- A page holding only the transcript anchor. -/
def cdoc10 : Doc := ⟨none, [anchor10]⟩

/- The annual-report task cdoc1 plans for company ACME. -/
def arTask2022 : Task :=
  { cat := "Annual Report", year := some 2022, month := none, url := "http://a",
    dest := ["tmp", "Financial_Archive", "ACME", "Annual_Reports", "2022",
             "Annual_Report_2022.pdf"] }

/- The transcript task cdoc10 plans for symbol s and company N. -/
def ccTask10 : Task :=
  { cat := "Transcript", year := some 2022, month := some "Feb", url := "http://t/1",
    dest := ["tmp", "Financial_Archive", "N", "Transcript", "2022",
             "S_Feb_2022_Transcript.pdf"] }

/- Lemmas about the text scanners. -/

theorem yearAt_not2 {c : Char} (h : c ≠ '2') (cs : List Char) : yearAt (c :: cs) = none := by
  rcases cs with _ | ⟨c2, _ | ⟨c3, _ | ⟨c4, rest⟩⟩⟩ <;> simp [yearAt, h]

theorem yearAt_snd_not0 {a c : Char} (h : c ≠ '0') (cs : List Char) :
    yearAt (a :: c :: cs) = none := by
  rcases cs with _ | ⟨c3, _ | ⟨c4, rest⟩⟩ <;> simp [yearAt, h]

theorem headNotWord_append (rest ys : List Char) :
    headNotWord (rest ++ ' ' :: ys) = headNotWord rest := by
  cases rest with
  | nil => simp [headNotWord]; decide
  | cons c t => simp [headNotWord]

theorem yearAt_append (xs ys : List Char) : yearAt (xs ++ ' ' :: ys) = yearAt xs := by
  rcases xs with _ | ⟨a, _ | ⟨b, _ | ⟨c, _ | ⟨d, rest⟩⟩⟩⟩
  · exact yearAt_not2 (by decide) ys
  · exact yearAt_snd_not0 (by decide) ys
  · rcases ys with _ | ⟨y1, t⟩ <;> simp [yearAt]
  · simp [yearAt]
  · simp only [List.cons_append, List.append_assoc, yearAt, headNotWord_append]

theorem findYear_append (xs : List Char) : ∀ (prev : Option Char) (ys : List Char),
    findYear prev (xs ++ ' ' :: ys) =
      match findYear prev xs with
      | some y => some y
      | none => findYear (some ' ') ys := by
  induction xs with
  | nil =>
    intro prev ys
    simp only [List.nil_append, findYear]
    rw [yearAt_not2 (by decide)]
    cases boundaryBefore prev <;> simp [findYear]
  | cons c xs ih =>
    intro prev ys
    have hy := yearAt_append (c :: xs) ys
    simp only [List.cons_append] at hy
    simp only [List.cons_append, findYear, hy]
    cases hb : boundaryBefore prev <;> cases hyy : yearAt (c :: xs) <;> simp [hy, hyy, ih]

theorem monthScan_eq_find (ms : List String) (cs : List Char) :
    monthScan cs ms =
      match ms.find? (fun m => hasWordCI m.data none cs) with
      | some m => capitalize m
      | none => "General" := by
  induction ms with
  | nil => rfl
  | cons m ms ih =>
    simp only [monthScan, List.find?]
    cases h : hasWordCI m.data none cs <;> simp [h, ih]

/- Lemmas about the task planner. -/

theorem classify_cases {types : List String} {lt c : String}
    (h : classify types lt = some c) :
    (c = "Transcript" ∧ (types.contains "all" || types.contains "transcript") = true) ∨
    (c = "PPT" ∧ (types.contains "all" || types.contains "ppt") = true) := by
  unfold classify at h
  split_ifs at h with h1 h2
  · exact Or.inl ⟨(Option.some.inj h).symm, ((Bool.and_eq_true _ _).mp h1).2⟩
  · exact Or.inr ⟨(Option.some.inj h).symm, ((Bool.and_eq_true _ _).mp h2).2⟩

theorem annual_mem_spec {root : List String} {s e : Nat} {items : List ARItem} {t : Task}
    (h : t ∈ annualPass root s e items) :
    t.cat = "Annual Report" ∧ t.month = none ∧ ∃ y, t.year = some y ∧ s ≤ y ∧ y ≤ e := by
  rcases List.mem_filterMap.mp h with ⟨li, -, heq⟩
  split at heq
  · exact absurd heq (by simp)
  · split at heq
    · exact absurd heq (by simp)
    · split at heq
      · exact absurd heq (by simp)
      · rename_i hr
        push_neg at hr
        rcases Option.some.inj heq with rfl
        exact ⟨rfl, rfl, _, rfl, hr.1, hr.2⟩

theorem concall_mem_spec {types : List String} {symU : String} {root : List String}
    {s e : Nat} {fs : List (List String)} {t : Task} :
    ∀ {as : List Anchor} {seen : List String},
    t ∈ concallLoop types symU root s e fs as seen →
    (∃ lt, classify types lt = some t.cat) ∧ ∃ y, t.year = some y ∧ s ≤ y ∧ y ≤ e := by
  intro as
  induction as with
  | nil => intro seen h; exact absurd h (by simp [concallLoop])
  | cons a rest ih =>
    intro seen h
    simp only [concallLoop] at h
    split at h
    · exact ih h
    · split at h
      · exact ih h
      · rename_i cat hcl
        split at h
        · exact ih h
        · rename_i y month hmd
          split at h
          · exact ih h
          · rename_i hr
            push_neg at hr
            rcases List.mem_cons.mp h with rfl | hmem
            · exact ⟨⟨pyLower a.text, hcl⟩, y, rfl, hr.1, hr.2⟩
            · exact ih hmem

theorem process_plan_mem {doc : Doc} {sym name : String} {s e : Nat} {dt : String}
    {fs : List (List String)} {t : Task}
    (h : t ∈ process_plan doc sym name s e dt fs) :
    (∃ items, doc.arSection = some items ∧ t ∈ annualPass (compRoot name) s e items) ∨
    t ∈ concallLoop (selectedTypesOf dt) (pyUpper sym) (compRoot name) s e fs doc.anchors [] := by
  simp only [process_plan, List.mem_append] at h
  rcases h with h | h
  · left
    split at h
    · split at h
      · rename_i items hsec
        exact ⟨items, hsec, h⟩
      · exact absurd h (by simp)
    · exact absurd h (by simp)
  · right
    split at h
    · exact h
    · exact absurd h (by simp)

/-- C2 counterexample: the claim that no two tasks of one plan share a
destination_path fails — a page with two annual-report entries that both
carry the year 2022 yields two distinct tasks (different source URLs) with
the identical destination path, because the annual-report pass applies no
collision handling at all. -/
theorem C2_counterexample :
    (process_plan cdoc2 "s" "ACME" 2015 2025 "all" []).map Task.dest =
      [["tmp", "Financial_Archive", "ACME", "Annual_Reports", "2022", "Annual_Report_2022.pdf"],
       ["tmp", "Financial_Archive", "ACME", "Annual_Reports", "2022", "Annual_Report_2022.pdf"]] ∧
    (process_plan cdoc2 "s" "ACME" 2015 2025 "all" []).map Task.url =
      ["http://a", "http://b"] := by
  decide

/-- C2 (amended): the collision counter is filesystem-scoped, not
plan-scoped — in the concall pass a candidate destination that does not
exist on disk is used as-is (so identical-metadata anchors collide within a
plan on a fresh filesystem), and a candidate that exists on disk receives
the first counter-suffixed name not on disk; the annual-report pass applies
no collision resolution. -/
theorem C2_fs_scoped_counter (fs : List (List String)) (dir : List String) (stem : String) :
    (dir ++ [stem ++ ".pdf"] ∉ fs → resolveDest fs dir stem = dir ++ [stem ++ ".pdf"]) ∧
    (dir ++ [stem ++ ".pdf"] ∈ fs → dir ++ [candidateName stem 1] ∉ fs →
      resolveDest fs dir stem = dir ++ [candidateName stem 1]) := by
  constructor
  · intro h
    simp [resolveDest, resolveLoop, h]
  · intro h1 h2
    rcases fs with - | ⟨f, fsT⟩
    · exact absurd h1 (List.not_mem_nil _)
    · simp [resolveDest, resolveLoop, h1, h2]

/-- C2 witness: on an empty filesystem the unsuffixed candidate is used. -/
theorem C2_witness : resolveDest [] ["d"] "s" = ["d"] ++ ["s" ++ ".pdf"] :=
  (C2_fs_scoped_counter [] ["d"] "s").1 (by decide)

/-- C4 counterexample: the period qualifier is not the first month by
document order — on combined text "Dec 2022 Jan u" the extractor returns
"Jan" (first in the fixed jan..dec scan order) although the first month by
document order is Dec. -/
theorem C4_counterexample :
    (extract_metadata anchor4).2 = "Jan" ∧
    docOrderScan none (combinedOf anchor4).data = some "dec" ∧
    capitalize "dec" = "Dec" ∧ ("Jan" : String) ≠ "Dec" := by
  decide

/-- C4 (amended): the period qualifier is the title-cased first month of the
fixed list order jan..dec that occurs as a case-insensitive whole word
anywhere in the combined text; absence of any month yields "General". -/
theorem C4_month_from_list_order (a : Anchor) :
    (extract_metadata a).2 =
      match month_list.find? (fun m => hasWordCI m.data none (combinedOf a).data) with
      | some m => capitalize m
      | none => "General" :=
  monthScan_eq_find month_list (combinedOf a).data

/-- C5 counterexample: the claim does not hold in every revision — on an
anchor whose year occurs only in the href, app.py's extractor finds 2022
while cloud_ready_app.py's extractor (which never searches the href)
returns the unknown sentinel. -/
theorem C5_counterexample :
    (extract_metadata anchor5).1 = some 2022 ∧
    (CloudReady.extract_metadata anchor5).1 = none := by
  decide

/-- C5 (amended): in app.py the year is the first 20xx token of the search
text, falling back to the first 20xx token of the href; in
cloud_ready_app.py only the search text is consulted. -/
theorem C5_year_search_scope (a : Anchor) :
    ((extract_metadata a).1 =
      match findYear none (searchTextOf a).data with
      | some y => some y
      | none => findYear (some ' ') a.href.data) ∧
    (CloudReady.extract_metadata a).1 = findYear none (searchTextOf a).data := by
  refine ⟨?_, rfl⟩
  show findYear none (combinedOf a).data = _
  have hsp : (" " : String).data = [' '] := rfl
  have hdata : (combinedOf a).data = (searchTextOf a).data ++ ' ' :: a.href.data := by
    show ((searchTextOf a ++ " ") ++ a.href).data = _
    rw [String.data_append, String.data_append, hsp, List.append_assoc]
    rfl
  rw [hdata, findYear_append]

/-- C6: download_file returns true exactly when the response has status 200
and a body longer than 1000 bytes; on every failure it returns false and
writes nothing, and on success it writes the body to the destination. -/
theorem C6_download_success_iff (resp : Except Unit HttpResp) :
    ((download_file resp).1 = true ↔
      ∃ r, resp = Except.ok r ∧ r.status = 200 ∧ 1000 < r.content.length) ∧
    ((download_file resp).1 = false → (download_file resp).2 = none) ∧
    ((download_file resp).1 = true →
      ∃ r, resp = Except.ok r ∧ (download_file resp).2 = some r.content) := by
  rcases resp with e | r
  · refine ⟨⟨fun h => by simp [download_file] at h, ?_⟩, fun _ => rfl,
      fun h => by simp [download_file] at h⟩
    rintro ⟨r, hr, -⟩
    exact Except.noConfusion hr
  · by_cases hc : r.status = 200 ∧ 1000 < r.content.length
    · have h1 : download_file (Except.ok r) = (true, some r.content) := by
        simp [download_file, hc]
      rw [h1]
      exact ⟨⟨fun _ => ⟨r, rfl, hc⟩, fun _ => rfl⟩, fun h => Bool.noConfusion h,
        fun _ => ⟨r, rfl, rfl⟩⟩
    · have h1 : download_file (Except.ok r) = (false, none) := by
        simp [download_file, hc]
      rw [h1]
      refine ⟨⟨fun h => Bool.noConfusion h, ?_⟩, fun _ => rfl,
        fun h => Bool.noConfusion h⟩
      rintro ⟨r2, hr2, hcond⟩
      obtain rfl := Except.ok.inj hr2
      exact absurd hcond hc

/-- C6 witness: a transport error yields false and writes no file. -/
theorem C6_witness :
    (download_file (Except.error ())).1 = false ∧
    (download_file (Except.error ())).2 = none :=
  ⟨rfl, (C6_download_success_iff (Except.error ())).2.1 rfl⟩

/-- C9: planning is deterministic — the plan is a pure function of the
document, the symbol, the company name, the year range, the selected types
and the on-disk state, and the planning phase itself writes nothing, so two
planning passes over an unchanged document yield the identical plan. -/
theorem C9_plan_deterministic (doc doc2 : Doc) (sym sym2 name name2 : String)
    (s s2 e e2 : Nat) (dt dt2 : String) (fs fs2 : List (List String))
    (hdoc : doc = doc2) (hsym : sym = sym2) (hname : name = name2) (hs : s = s2)
    (he : e = e2) (hdt : dt = dt2) (hfs : fs = fs2) :
    process_plan doc sym name s e dt fs = process_plan doc2 sym2 name2 s2 e2 dt2 fs2 := by
  subst hdoc hsym hname hs he hdt hfs
  rfl

/-- C9 witness: the two planning passes over cdoc1 agree. -/
theorem C9_witness :
    process_plan cdoc1 "abc" "ACME" 2015 2025 "all" [] =
      process_plan cdoc1 "abc" "ACME" 2015 2025 "all" [] :=
  C9_plan_deterministic cdoc1 cdoc1 "abc" "abc" "ACME" "ACME" 2015 2015 2025 2025
    "all" "all" [] [] rfl rfl rfl rfl rfl rfl rfl

/-- C1 is violated by the code: the dispatcher increments `completed` once
per finished future without consulting the download's boolean result, so a
one-task run whose download fails still terminates with COMPLETE 1 1 — the
terminal completed field equals the number of finished tasks, not the number
of successes, and completed < total never happens. -/
theorem C1_completed_counts_failures :
    (process_company (Except.ok cdoc1) "abc" "ACME" 2015 2025 "all" [] [false]
        (fun _ => 0)).events =
      [Event.status "Fetching data for ACME...", Event.total 1, Event.progress 1 1 0,
       Event.complete 1 1 ["tmp", "Financial_Archive", "ACME"]] ∧
    successCount [false] = 0 ∧ (1 : Nat) ≠ 0 := by
  exact ⟨by decide, by decide, by decide⟩

/-- C3 counterexample: in src/cloud_ready_app.py an annual-report entry with
no discoverable year is not skipped — it is planned with the Unknown_Year
sentinel, refuting the claim for that revision. -/
theorem C3_counterexample :
    CloudReady.plan cdoc3 "s" "ACME" 2015 2025 [] =
      [{ cat := "Annual Report", year := none, month := none, url := "http://a",
         dest := ["tmp", "Financial_Archive", "ACME", "Annual_Reports", "Unknown_Year",
                  "Annual_Report_Unknown_Year.pdf"] }] := by
  decide

/-- C3 (amended): in src/app.py every planned task — annual-report tasks in
particular — carries a known year; only src/cloud_ready_app.py retains
unknown-year annual-report entries. -/
theorem C3_app_tasks_have_year (doc : Doc) (sym name : String) (s e : Nat) (dt : String)
    (fs : List (List String)) (t : Task) (ht : t ∈ process_plan doc sym name s e dt fs) :
    t.year.isSome = true := by
  rcases process_plan_mem ht with ⟨items, -, hmem⟩ | hmem
  · rcases (annual_mem_spec hmem).2.2 with ⟨y, hy, -, -⟩
    simp [hy]
  · rcases (concall_mem_spec hmem).2 with ⟨y, hy, -, -⟩
    simp [hy]

/-- C3 witness: the annual-report task planned from cdoc1 has a known year. -/
theorem C3_witness : arTask2022.year.isSome = true :=
  C3_app_tasks_have_year cdoc1 "abc" "ACME" 2015 2025 "all" [] arTask2022 (by decide)

/-- C7: when planning yields zero tasks the run emits only the two STATUS
events and the zero/zero terminal COMPLETE — no TOTAL or PROGRESS event, no
task is submitted for download, and the run returns no archive root. -/
theorem C7_empty_plan (doc : Doc) (sym name : String) (s e : Nat) (dt : String)
    (fs : List (List String)) (results : List Bool) (eta : Nat → Nat)
    (h : process_plan doc sym name s e dt fs = []) :
    (process_company (Except.ok doc) sym name s e dt fs results eta).events =
      [Event.status ("Fetching data for " ++ name ++ "..."),
       Event.status "No files found in the specified year range",
       Event.complete 0 0 []] ∧
    (∀ ev ∈ (process_company (Except.ok doc) sym name s e dt fs results eta).events,
       (∀ n, ev ≠ Event.total n) ∧ ∀ c tot k, ev ≠ Event.progress c tot k) ∧
    (process_company (Except.ok doc) sym name s e dt fs results eta).attempted = [] ∧
    (process_company (Except.ok doc) sym name s e dt fs results eta).ret = none := by
  have hpc : process_company (Except.ok doc) sym name s e dt fs results eta =
      ⟨[Event.status ("Fetching data for " ++ name ++ "..."),
        Event.status "No files found in the specified year range",
        Event.complete 0 0 []], none, []⟩ := by
    simp [process_company, h]
  rw [hpc]
  refine ⟨rfl, ?_, rfl, rfl⟩
  intro ev hev
  simp only [List.mem_cons, List.not_mem_nil, or_false] at hev
  rcases hev with rfl | rfl | rfl <;>
    exact ⟨fun n hn => Event.noConfusion hn, fun c tot k hp => Event.noConfusion hp⟩

/-- C7 witness: a page with no section and no anchors plans nothing and the
run reports zero/zero immediately with nothing attempted. -/
theorem C7_witness :
    (process_company (Except.ok cdoc7) "s" "N" 2015 2025 "all" [] [] (fun _ => 0)).events =
      [Event.status "Fetching data for N...",
       Event.status "No files found in the specified year range",
       Event.complete 0 0 []] ∧
    (process_company (Except.ok cdoc7) "s" "N" 2015 2025 "all" [] [] (fun _ => 0)).attempted
      = [] :=
  ⟨(C7_empty_plan cdoc7 "s" "N" 2015 2025 "all" [] [] (fun _ => 0) (by decide)).1,
   (C7_empty_plan cdoc7 "s" "N" 2015 2025 "all" [] [] (fun _ => 0) (by decide)).2.2.1⟩

/-- C8: every task of a plan whose year is known has that year inside the
requested range [startYear, endYear] — both planner passes skip
out-of-range entries. -/
theorem C8_year_in_range (doc : Doc) (sym name : String) (s e : Nat) (dt : String)
    (fs : List (List String)) (t : Task) (ht : t ∈ process_plan doc sym name s e dt fs)
    (y : Nat) (hy : t.year = some y) : s ≤ y ∧ y ≤ e := by
  rcases process_plan_mem ht with ⟨items, -, hmem⟩ | hmem
  · rcases (annual_mem_spec hmem).2.2 with ⟨y2, hy2, h1, h2⟩
    obtain rfl := Option.some.inj (hy.symm.trans hy2)
    exact ⟨h1, h2⟩
  · rcases (concall_mem_spec hmem).2 with ⟨y2, hy2, h1, h2⟩
    obtain rfl := Option.some.inj (hy.symm.trans hy2)
    exact ⟨h1, h2⟩

/-- C8 witness: the 2022 annual-report task of cdoc1 lies inside
[2015, 2025]. -/
theorem C8_witness : 2015 ≤ 2022 ∧ 2022 ≤ 2025 :=
  C8_year_in_range cdoc1 "abc" "ACME" 2015 2025 "all" [] arTask2022 (by decide)
    2022 (by decide)

/-- C10: the download_type argument gates planning — without "all" or
"annual_reports" among the selected types no annual-report task is planned,
a Transcript task requires "all" or "transcript" to be selected, a PPT task
requires "all" or "ppt", and the default "all" selects everything. -/
theorem C10_download_type_gates (doc : Doc) (sym name : String) (s e : Nat)
    (fs : List (List String)) (dt : String) :
    (((selectedTypesOf dt).contains "all" ||
        (selectedTypesOf dt).contains "annual_reports") = false →
      ∀ t ∈ process_plan doc sym name s e dt fs, t.cat ≠ "Annual Report") ∧
    (∀ t ∈ process_plan doc sym name s e dt fs, t.cat = "Transcript" →
      ((selectedTypesOf dt).contains "all" ||
        (selectedTypesOf dt).contains "transcript") = true) ∧
    (∀ t ∈ process_plan doc sym name s e dt fs, t.cat = "PPT" →
      ((selectedTypesOf dt).contains "all" ||
        (selectedTypesOf dt).contains "ppt") = true) ∧
    selectedTypesOf "all" = ["all"] := by
  refine ⟨?_, ?_, ?_, by decide⟩
  · intro hg t ht
    simp only [process_plan, hg] at ht
    obtain ⟨-, ht2⟩ :
        (("all" ∈ selectedTypesOf dt ∨ "ppt" ∈ selectedTypesOf dt) ∨
          "transcript" ∈ selectedTypesOf dt) ∧
        t ∈ concallLoop (selectedTypesOf dt) (pyUpper sym) (compRoot name) s e
            fs doc.anchors [] := by simpa using ht
    rcases (concall_mem_spec ht2).1 with ⟨lt, hcl⟩
    rcases classify_cases hcl with ⟨hc, -⟩ | ⟨hc, -⟩ <;> rw [hc] <;> decide
  · intro t ht hcat
    rcases process_plan_mem ht with ⟨items, -, hmem⟩ | hmem
    · have hca := (annual_mem_spec hmem).1
      rw [hcat] at hca
      exact absurd hca (by decide)
    · rcases (concall_mem_spec hmem).1 with ⟨lt, hcl⟩
      rcases classify_cases hcl with ⟨-, hg⟩ | ⟨hc, -⟩
      · exact hg
      · rw [hcat] at hc
        exact absurd hc (by decide)
  · intro t ht hcat
    rcases process_plan_mem ht with ⟨items, -, hmem⟩ | hmem
    · have hca := (annual_mem_spec hmem).1
      rw [hcat] at hca
      exact absurd hca (by decide)
    · rcases (concall_mem_spec hmem).1 with ⟨lt, hcl⟩
      rcases classify_cases hcl with ⟨hc, -⟩ | ⟨-, hg⟩
      · rw [hcat] at hc
        exact absurd hc (by decide)
      · exact hg

/-- C10 witness: with download_type "transcript" the annual-report gate is
off and the planned transcript task is not an annual report. -/
theorem C10_witness : ccTask10.cat ≠ "Annual Report" :=
  (C10_download_type_gates cdoc10 "s" "N" 2015 2025 [] "transcript").1 (by decide)
    ccTask10 (by decide)

end Archiver
